import Mathlib

set_option maxRecDepth 8000

/-!
Shallow embedding of the EMACross trading strategy
(`examples/strategies/ema_cross.py`) of this repository.

Prices, indicator values and buffers are modelled as exact rationals (the
Python source uses IEEE doubles; all claims here concern the algebraic and
control-flow behaviour, which is identical over exact arithmetic).
Timestamps are modelled in seconds, so `timedelta(minutes=1)` is `60`.

The `Price` class (`nautilus_trader.model.objects`) and
`FixedRiskSizer.calculate` (`nautilus_trader.trading.sizing`) are not under
`src/`; they are modelled from the spec where marked below.
-/

namespace EmaCross

/-- Side of an order, from `nautilus_trader.model.enums.OrderSide`; only BUY
and SELL are used by the strategy. -/
inductive OrderSide
  | buy
  | sell
  deriving DecidableEq, Repr

/-- Time-in-force of an order, from `nautilus_trader.model.enums.TimeInForce`;
the strategy only ever sets GTD on its entry order. -/
inductive TimeInForce
  | gtc
  | gtd
  deriving DecidableEq, Repr

/-- Round a rational to the nearest integer, ties to even.
Modelled from the spec: the `Price` constructor (class
`nautilus_trader.model.objects.Price`, not under `src/`) rounds a raw value
to the instrument price precision; the spec fixes the rounding rule as
round-half-even, applied identically to entry, stop and target prices. -/
def roundHalfEven (q : ℚ) : ℤ :=
  if q - ⌊q⌋ < 1 / 2 then ⌊q⌋
  else if 1 / 2 < q - ⌊q⌋ then ⌊q⌋ + 1
  else if ⌊q⌋ % 2 = 0 then ⌊q⌋
  else ⌊q⌋ + 1

/-- Modelled from the spec: `Price(x, precision)` — the raw value `x`
rounded to `precision` decimal places (round-half-even). -/
def priceRound (prec : ℕ) (x : ℚ) : ℚ :=
  (roundHalfEven (x * 10 ^ prec) : ℚ) / 10 ^ prec

/-- A bar as consumed by the strategy: only `high`, `low` and `timestamp`
are read by `on_bar` / `_enter_long` / `_enter_short` / `_check_trailing_stops`. -/
structure Bar where
  high : ℚ
  low : ℚ
  timestamp : ℤ
  deriving DecidableEq, Repr

/-- One working order as seen by the trailing-stop sweep: its role flag
(`self.is_stop_loss(order.cl_ord_id)`), side, current price and quantity. -/
structure WorkingOrder where
  is_stop_loss : Bool
  side : OrderSide
  price : ℚ
  quantity : ℚ
  deriving DecidableEq, Repr

/-- The order intent produced by a successful entry: the bracket assembled
from the entry stop order (side, quantity, price, time-in-force, expiry)
plus the linked stop-loss and take-profit prices. -/
structure OrderIntent where
  side : OrderSide
  quantity : ℚ
  entry_price : ℚ
  stop_loss : ℚ
  take_profit : ℚ
  time_in_force : TimeInForce
  expire_time : ℤ
  deriving DecidableEq, Repr

/-- Strategy configuration fields read by the per-bar decision code
(`self.precision`, `self.risk_bp`, `self.entry_buffer`, `self.SL_atr_multiple`). -/
structure StrategyConfig where
  precision : ℕ
  risk_bp : ℚ
  entry_buffer : ℚ
  sl_atr_multiple : ℚ
  deriving DecidableEq, Repr

/-- Snapshot of the external state read during one `on_bar` cycle:
indicator readiness and values, tick availability, spread analyzer readings,
position flatness, the working orders, the exchange-rate lookups (`none`
models the lookup raising `ValueError`) and account free equity. -/
structure MarketState where
  indicators_initialized : Bool
  has_quote_ticks : Bool
  average_spread : ℚ
  current_spread : ℚ
  atr_value : ℚ
  fast_ema : ℚ
  slow_ema : ℚ
  is_flat : Bool
  working_orders : List WorkingOrder
  exchange_rate_ask : Option ℚ
  exchange_rate_bid : Option ℚ
  free_equity : ℚ
  deriving DecidableEq, Repr

/-- Outcome of `_enter_long` / `_enter_short`: whether the position sizer
was invoked, and the submitted bracket intent if any. -/
structure EnterResult where
  sizer_invoked : Bool
  submitted : Option OrderIntent
  deriving DecidableEq, Repr

/-- Outcome of one `on_bar` call: whether `_check_signal` was invoked,
whether the trailing-stop sweep ran, the signal branch taken (side entered
and its result), and the working orders after the sweep. -/
structure OnBarResult where
  entry_checked : Bool
  trailing_ran : Bool
  signal : Option (OrderSide × EnterResult)
  orders_after : List WorkingOrder
  deriving DecidableEq, Repr

/-- Modelled from the spec: `FixedRiskSizer.calculate`
(`nautilus_trader.trading.sizing`, not under `src/`).
`riskAmount = equity * riskBp / 10000`; `riskPerUnit` is the absolute
entry-to-stop distance converted at the exchange rate, zero or negative
distance yields quantity 0; estimated commission per unit (commission rate
applied to per-unit notional) is added before dividing; the raw quantity is
rounded down to a multiple of the unit batch size and clamped to the hard
limit. -/
def fixedRiskSize (equity risk_bp entry stop_loss exchange_rate
    commission_rate_bp hard_limit unit_batch_size : ℚ) : ℚ :=
  let risk_amount := equity * risk_bp / 10000
  let risk_per_unit := |entry - stop_loss| * exchange_rate
  if risk_per_unit ≤ 0 then 0
  else
    let total_per_unit := risk_per_unit + entry * exchange_rate * commission_rate_bp / 10000
    let raw := risk_amount / total_per_unit
    min ((⌊raw / unit_batch_size⌋ : ℚ) * unit_batch_size) hard_limit

/-- Lines 165-169 of `ema_cross.py` (`_enter_long`): entry, stop-loss and
take-profit prices for a BUY bracket, in order. -/
def bracketPricesLong (cfg : StrategyConfig) (bar : Bar)
    (sl_buffer spread_buffer : ℚ) : ℚ × ℚ × ℚ :=
  let price_entry := priceRound cfg.precision (bar.high + cfg.entry_buffer + spread_buffer)
  let price_stop_loss := priceRound cfg.precision (bar.low - sl_buffer)
  let risk := price_entry - price_stop_loss
  let price_take_profit := priceRound cfg.precision (price_entry + risk)
  (price_entry, price_stop_loss, price_take_profit)

/-- Lines 218-222 of `ema_cross.py` (`_enter_short`): entry, stop-loss and
take-profit prices for a SELL bracket, in order. -/
def bracketPricesShort (cfg : StrategyConfig) (bar : Bar)
    (sl_buffer spread_buffer : ℚ) : ℚ × ℚ × ℚ :=
  let price_entry := priceRound cfg.precision (bar.low - cfg.entry_buffer)
  let price_stop_loss := priceRound cfg.precision (bar.high + sl_buffer + spread_buffer)
  let risk := price_stop_loss - price_entry
  let price_take_profit := priceRound cfg.precision (price_entry - risk)
  (price_entry, price_stop_loss, price_take_profit)

/-- `_enter_long` (lines 164-215): compute bracket prices; the exchange rate
starts at 0 and a failed lookup leaves it 0 (the `ValueError` is logged);
return with no submission if the rate is 0; otherwise invoke the sizer with
`commission_rate_bp=0.15`, `hard_limit=20000000`, `unit_batch_size=10000`;
return with no submission if the size is 0; otherwise submit the bracket
with a GTD entry stop order expiring one minute after the bar timestamp. -/
def enter_long (cfg : StrategyConfig) (st : MarketState) (bar : Bar)
    (sl_buffer spread_buffer : ℚ) : EnterResult :=
  let p := bracketPricesLong cfg bar sl_buffer spread_buffer
  let exchange_rate := st.exchange_rate_ask.getD 0
  if exchange_rate = 0 then ⟨false, none⟩
  else
    let position_size := fixedRiskSize st.free_equity cfg.risk_bp p.1 p.2.1
      exchange_rate (15 / 100) 20000000 10000
    if position_size = 0 then ⟨true, none⟩
    else
      ⟨true, some ⟨OrderSide.buy, position_size, p.1, p.2.1, p.2.2,
        TimeInForce.gtd, bar.timestamp + 60⟩⟩

/-- `_enter_short` (lines 217-268): mirror image of `_enter_long`, with the
BID-side exchange rate and a SELL entry stop order. -/
def enter_short (cfg : StrategyConfig) (st : MarketState) (bar : Bar)
    (sl_buffer spread_buffer : ℚ) : EnterResult :=
  let p := bracketPricesShort cfg bar sl_buffer spread_buffer
  let exchange_rate := st.exchange_rate_bid.getD 0
  if exchange_rate = 0 then ⟨false, none⟩
  else
    let position_size := fixedRiskSize st.free_equity cfg.risk_bp p.1 p.2.1
      exchange_rate (15 / 100) 20000000 10000
    if position_size = 0 then ⟨true, none⟩
    else
      ⟨true, some ⟨OrderSide.sell, position_size, p.1, p.2.1, p.2.2,
        TimeInForce.gtd, bar.timestamp + 60⟩⟩

/-- `_check_signal` (lines 155-162): only with zero working orders and a
flat position, enter long when `fast_ema.value >= slow_ema.value`, enter
short when `fast_ema.value < slow_ema.value`. The returned pair records the
branch taken (entry side) and the entry outcome; `none` means no entry
attempt. -/
def check_signal (cfg : StrategyConfig) (st : MarketState) (bar : Bar)
    (sl_buffer spread_buffer : ℚ) : Option (OrderSide × EnterResult) :=
  if st.working_orders.length = 0 ∧ st.is_flat = true then
    if st.slow_ema ≤ st.fast_ema then
      some (OrderSide.buy, enter_long cfg st bar sl_buffer spread_buffer)
    else if st.fast_ema < st.slow_ema then
      some (OrderSide.sell, enter_short cfg st bar sl_buffer spread_buffer)
    else none
  else none

/-- Body of one iteration of the `_check_trailing_stops` loop (lines
275-284) for an order already known to be a stop-loss: a SELL-side stop is
moved to `Price(bar.low - sl_buffer)` only if that exceeds its price; a
BUY-side stop is moved to `Price(bar.high + sl_buffer + spread_buffer)`
only if that is below its price; quantity is unchanged. -/
def trail_order (prec : ℕ) (bar : Bar) (sl_buffer spread_buffer : ℚ)
    (o : WorkingOrder) : WorkingOrder :=
  match o.side with
  | OrderSide.sell =>
      let temp_price := priceRound prec (bar.low - sl_buffer)
      if o.price < temp_price then { o with price := temp_price } else o
  | OrderSide.buy =>
      let temp_price := priceRound prec (bar.high + sl_buffer + spread_buffer)
      if temp_price < o.price then { o with price := temp_price } else o

/-- `_check_trailing_stops` (lines 270-284): iterate over the working
orders; on the first order that is not a stop-loss the function `return`s
(the remaining orders are left untouched); otherwise the order is trailed
and the sweep continues. -/
def check_trailing_stops (prec : ℕ) (bar : Bar) (sl_buffer spread_buffer : ℚ) :
    List WorkingOrder → List WorkingOrder
  | [] => []
  | o :: rest =>
      if o.is_stop_loss = false then o :: rest
      else trail_order prec bar sl_buffer spread_buffer o ::
        check_trailing_stops prec bar sl_buffer spread_buffer rest

/-- `on_bar` (lines 116-153): return unchanged if indicators are not
initialized, or no quote ticks have been observed, or the average spread is
exactly 0; otherwise compute `spread_buffer = max(average, current)` and
`sl_buffer = atr * SL_atr_multiple`, call `_check_signal` only when
`atr / average_spread >= 2.0`, and always run the trailing-stop sweep. -/
def on_bar (cfg : StrategyConfig) (st : MarketState) (bar : Bar) : OnBarResult :=
  if st.indicators_initialized = false then ⟨false, false, none, st.working_orders⟩
  else if st.has_quote_ticks = false then ⟨false, false, none, st.working_orders⟩
  else if st.average_spread = 0 then ⟨false, false, none, st.working_orders⟩
  else
    let spread_buffer := max st.average_spread st.current_spread
    let sl_buffer := st.atr_value * cfg.sl_atr_multiple
    let signal := if 2 ≤ st.atr_value / st.average_spread
      then check_signal cfg st bar sl_buffer spread_buffer
      else none
    ⟨decide (2 ≤ st.atr_value / st.average_spread), true, signal,
      check_trailing_stops cfg.precision bar sl_buffer spread_buffer st.working_orders⟩

/-- Relation between one working order and its image under one pass of the
trailing-stop sweep: role, side and quantity are unchanged; a SELL-side
order price never decreases and a BUY-side order price never increases; and
when the price did change and the old price was exactly representable at
the precision, the raw candidate (`bar.low - sl_buffer` for SELL,
`bar.high + sl_buffer + spread_buffer` for BUY) strictly improved on it. -/
def trailRel (prec : ℕ) (bar : Bar) (sl_buffer spread_buffer : ℚ)
    (o o' : WorkingOrder) : Prop :=
  o'.side = o.side ∧ o'.is_stop_loss = o.is_stop_loss ∧ o'.quantity = o.quantity ∧
  (o.side = OrderSide.sell →
    o.price ≤ o'.price ∧
    (o'.price ≠ o.price → priceRound prec o.price = o.price →
      o.price < bar.low - sl_buffer)) ∧
  (o.side = OrderSide.buy →
    o'.price ≤ o.price ∧
    (o'.price ≠ o.price → priceRound prec o.price = o.price →
      bar.high + sl_buffer + spread_buffer < o.price))

/-- Monotonicity of one stop price across sweeps: side unchanged, SELL-side
price non-decreasing, BUY-side price non-increasing. -/
def monoRel (o o' : WorkingOrder) : Prop :=
  o'.side = o.side ∧
  (o.side = OrderSide.sell → o.price ≤ o'.price) ∧
  (o.side = OrderSide.buy → o'.price ≤ o.price)

/-- The trailing-stop sweep folded over a sequence of consecutive bars,
each paired with its volatility and spread buffers. -/
def sweep_bars (prec : ℕ) (steps : List (Bar × ℚ × ℚ))
    (orders : List WorkingOrder) : List WorkingOrder :=
  steps.foldl (fun os step => check_trailing_stops prec step.1 step.2.1 step.2.2 os) orders

/-- Concrete configuration used for worked examples: precision 5 (the FX
default in the source), 10 bp risk, no entry buffer, ATR multiple 2. -/
def cfgW : StrategyConfig := ⟨5, 10, 0, 2⟩

/-- Concrete configuration with a nonzero entry buffer (one pip). -/
def cfgB : StrategyConfig := ⟨5, 10, 1 / 10000, 2⟩

/-- A flat one-point bar at price 1. -/
def barW : Bar := ⟨1, 1, 0⟩

/-- A concrete bar with high 1.2 and low 1.1. -/
def barB : Bar := ⟨12 / 10, 11 / 10, 0⟩

/-- Warmed-up flat state: indicators initialized, ticks seen, tiny positive
spreads, equal fast and slow EMA values, no working orders, unit exchange
rates, 100M free equity. -/
def stFlat : MarketState :=
  ⟨true, true, 1 / 100, 1 / 100, 1, 1, 1, true, [], some 1, some 1, 100000000⟩

/-- Warmed-up flat state sitting exactly on the liquidity boundary:
average spread 1 and ATR 2, so the liquidity ratio is exactly 2. -/
def stBoundary : MarketState :=
  ⟨true, true, 1, 1, 2, 1, 1, true, [], some 1, some 1, 100000000⟩

/-- Warmed-up state whose ASK exchange-rate lookup returns a negative rate. -/
def stNegRate : MarketState :=
  ⟨true, true, 1 / 100, 1 / 100, 1, 1, 1, true, [], some (-1), some 1, 100000000⟩

/-- Warmed-up state whose exchange-rate lookups both fail (raise). -/
def stNoRate : MarketState :=
  ⟨true, true, 1 / 100, 1 / 100, 1, 1, 1, true, [], none, none, 100000000⟩

/-- State with a NEGATIVE average spread (crossed quotes), indicators ready
and ticks seen, ATR 5, and one working sell-side stop-loss at price 1. -/
def stNegSpread : MarketState :=
  ⟨true, true, -1, 0, 5, 1, 1, true, [⟨true, OrderSide.sell, 1, 1⟩],
    some 1, some 1, 100000000⟩

/-- State whose indicators are not yet initialized, with one working
sell-side stop-loss that a sweep would otherwise move. -/
def stNotReady : MarketState :=
  ⟨false, true, 1 / 100, 1 / 100, 5, 1, 1, true, [⟨true, OrderSide.sell, 1, 1⟩],
    some 1, some 1, 100000000⟩

/-- Warmed-up state with an exactly zero average spread, with one working
sell-side stop-loss that a sweep would otherwise move. -/
def stZeroSpread : MarketState :=
  ⟨true, true, 0, 1 / 100, 5, 1, 1, true, [⟨true, OrderSide.sell, 1, 1⟩],
    some 1, some 1, 100000000⟩

/-- A bar well above the working stop of `stNegSpread` / `stZeroSpread`. -/
def barHigh : Bar := ⟨30, 20, 0⟩

/-- A working take-profit leg (not a stop-loss), sell side, price 100. -/
def tpLeg : WorkingOrder := ⟨false, OrderSide.sell, 100, 1⟩

/-- A working sell-side stop-loss leg at price 1. -/
def slLeg : WorkingOrder := ⟨true, OrderSide.sell, 1, 1⟩

/-- A bar whose low (10) lies far above `slLeg`'s stop price. -/
def barMid : Bar := ⟨12, 10, 0⟩

/-- The order intent produced by `enter_long cfgW stFlat barW 0 (1/10000)`:
entry one pip above the bar, stop at the bar low, take profit one pip above
entry, hard-limit quantity, GTD, expiring 60 seconds after the bar. -/
def intentW : OrderIntent :=
  ⟨OrderSide.buy, 20000000, 10001 / 10000, 1, 10002 / 10000, TimeInForce.gtd, 60⟩

lemma roundHalfEven_le_add_half (q : ℚ) : (roundHalfEven q : ℚ) ≤ q + 1 / 2 := by
  have h1 := Int.floor_le q
  have h2 := Int.lt_floor_add_one q
  unfold roundHalfEven
  split_ifs with ha hb hc <;> push_cast <;> linarith

lemma sub_half_le_roundHalfEven (q : ℚ) : q - 1 / 2 ≤ (roundHalfEven q : ℚ) := by
  have h1 := Int.floor_le q
  have h2 := Int.lt_floor_add_one q
  unfold roundHalfEven
  split_ifs with ha hb hc <;> push_cast <;> linarith

lemma roundHalfEven_intCast (n : ℤ) : roundHalfEven (n : ℚ) = n := by
  unfold roundHalfEven
  rw [Int.floor_intCast]
  norm_num

lemma pow_ten_pos (prec : ℕ) : (0 : ℚ) < 10 ^ prec := by positivity

lemma priceRound_of_int (prec : ℕ) (x : ℚ) (n : ℤ) (h : x * 10 ^ prec = (n : ℚ)) :
    priceRound prec x = x := by
  unfold priceRound
  rw [h, roundHalfEven_intCast, ← h]
  field_simp

lemma exists_int_of_priceRound_eq (prec : ℕ) (x : ℚ) (h : priceRound prec x = x) :
    ∃ n : ℤ, x * 10 ^ prec = (n : ℚ) := by
  unfold priceRound at h
  rw [div_eq_iff (pow_ten_pos prec).ne'] at h
  exact ⟨roundHalfEven (x * 10 ^ prec), h.symm⟩

lemma priceRound_sub_self (prec : ℕ) (x y : ℚ)
    (hx : priceRound prec x = x) (hy : priceRound prec y = y) :
    priceRound prec (x + (x - y)) = x + (x - y) := by
  obtain ⟨n, hn⟩ := exists_int_of_priceRound_eq prec x hx
  obtain ⟨m, hm⟩ := exists_int_of_priceRound_eq prec y hy
  refine priceRound_of_int prec _ (n + (n - m)) ?_
  push_cast
  linear_combination 2 * hn - hm

/-- Transfer of strict comparison through rounding: if the grid point `p` is
exactly representable at the precision and the rounded candidate exceeds
`p`, then the raw candidate already exceeds `p`. -/
lemma lt_of_lt_priceRound (prec : ℕ) (x p : ℚ)
    (hp : priceRound prec p = p) (h : p < priceRound prec x) : p < x := by
  obtain ⟨m, hm⟩ := exists_int_of_priceRound_eq prec p hp
  have hpow := pow_ten_pos prec
  unfold priceRound at h
  rw [lt_div_iff hpow] at h
  have hmlt : (m : ℚ) < (roundHalfEven (x * 10 ^ prec) : ℚ) := by
    calc (m : ℚ) = p * 10 ^ prec := hm.symm
    _ < _ := h
  have hint : m < roundHalfEven (x * 10 ^ prec) := by exact_mod_cast hmlt
  have hint1 : m + 1 ≤ roundHalfEven (x * 10 ^ prec) := hint
  have hb := roundHalfEven_le_add_half (x * 10 ^ prec)
  have : (m : ℚ) + 1 ≤ x * 10 ^ prec + 1 / 2 := by
    calc ((m : ℚ) + 1) = ((m + 1 : ℤ) : ℚ) := by push_cast; ring
    _ ≤ (roundHalfEven (x * 10 ^ prec) : ℚ) := by exact_mod_cast hint1
    _ ≤ x * 10 ^ prec + 1 / 2 := hb
  have hxp : p * 10 ^ prec < x * 10 ^ prec := by rw [hm]; linarith
  exact lt_of_mul_lt_mul_right (by linarith) (le_of_lt hpow)

/-- Dual transfer: if the rounded candidate is below the representable grid
point `p`, the raw candidate is already below `p`. -/
lemma gt_of_gt_priceRound (prec : ℕ) (x p : ℚ)
    (hp : priceRound prec p = p) (h : priceRound prec x < p) : x < p := by
  obtain ⟨m, hm⟩ := exists_int_of_priceRound_eq prec p hp
  have hpow := pow_ten_pos prec
  unfold priceRound at h
  rw [div_lt_iff hpow] at h
  have hmlt : (roundHalfEven (x * 10 ^ prec) : ℚ) < (m : ℚ) := by
    calc (roundHalfEven (x * 10 ^ prec) : ℚ) < p * 10 ^ prec := h
    _ = m := hm
  have hint : roundHalfEven (x * 10 ^ prec) < m := by exact_mod_cast hmlt
  have hint1 : roundHalfEven (x * 10 ^ prec) + 1 ≤ m := hint
  have hb := sub_half_le_roundHalfEven (x * 10 ^ prec)
  have : x * 10 ^ prec - 1 / 2 + 1 ≤ (m : ℚ) := by
    calc x * 10 ^ prec - 1 / 2 + 1 ≤ (roundHalfEven (x * 10 ^ prec) : ℚ) + 1 := by linarith
    _ = ((roundHalfEven (x * 10 ^ prec) + 1 : ℤ) : ℚ) := by push_cast; ring
    _ ≤ (m : ℚ) := by exact_mod_cast hint1
  have hxp : x * 10 ^ prec < p * 10 ^ prec := by rw [hm]; linarith
  exact lt_of_mul_lt_mul_right hxp (le_of_lt hpow)

lemma trailRel_self (prec : ℕ) (bar : Bar) (sl_buffer spread_buffer : ℚ)
    (o : WorkingOrder) : trailRel prec bar sl_buffer spread_buffer o o :=
  ⟨rfl, rfl, rfl, fun _ => ⟨le_refl _, fun hne => absurd rfl hne⟩,
    fun _ => ⟨le_refl _, fun hne => absurd rfl hne⟩⟩

lemma trail_order_trailRel (prec : ℕ) (bar : Bar) (sl_buffer spread_buffer : ℚ)
    (o : WorkingOrder) :
    trailRel prec bar sl_buffer spread_buffer o (trail_order prec bar sl_buffer spread_buffer o) := by
  cases ho : o.side with
  | sell =>
      have heq : trail_order prec bar sl_buffer spread_buffer o =
          if o.price < priceRound prec (bar.low - sl_buffer)
          then { o with price := priceRound prec (bar.low - sl_buffer) } else o := by
        unfold trail_order
        rw [ho]
      rw [heq]
      split_ifs with h
      · refine ⟨rfl, rfl, rfl, fun _ => ⟨le_of_lt h, fun _ hgrid => ?_⟩, fun hbuy => ?_⟩
        · exact lt_of_lt_priceRound prec _ _ hgrid h
        · rw [ho] at hbuy
          cases hbuy
      · exact trailRel_self prec bar sl_buffer spread_buffer o
  | buy =>
      have heq : trail_order prec bar sl_buffer spread_buffer o =
          if priceRound prec (bar.high + sl_buffer + spread_buffer) < o.price
          then { o with price := priceRound prec (bar.high + sl_buffer + spread_buffer) } else o := by
        unfold trail_order
        rw [ho]
      rw [heq]
      split_ifs with h
      · refine ⟨rfl, rfl, rfl, fun hsell => ?_, fun _ => ⟨le_of_lt h, fun _ hgrid => ?_⟩⟩
        · rw [ho] at hsell
          cases hsell
        · exact gt_of_gt_priceRound prec _ _ hgrid h
      · exact trailRel_self prec bar sl_buffer spread_buffer o

lemma check_trailing_stops_trailRel (prec : ℕ) (bar : Bar) (sl_buffer spread_buffer : ℚ) :
    ∀ orders : List WorkingOrder,
      List.Forall₂ (trailRel prec bar sl_buffer spread_buffer) orders
        (check_trailing_stops prec bar sl_buffer spread_buffer orders) := by
  intro orders
  induction orders with
  | nil => exact List.Forall₂.nil
  | cons o rest ih =>
      show List.Forall₂ _ (o :: rest)
        (if o.is_stop_loss = false then o :: rest
         else trail_order prec bar sl_buffer spread_buffer o ::
           check_trailing_stops prec bar sl_buffer spread_buffer rest)
      split_ifs with h
      · exact List.forall₂_same.2 fun x _ => trailRel_self prec bar sl_buffer spread_buffer x
      · exact List.Forall₂.cons (trail_order_trailRel prec bar sl_buffer spread_buffer o) ih

lemma monoRel_refl (o : WorkingOrder) : monoRel o o :=
  ⟨rfl, fun _ => le_refl _, fun _ => le_refl _⟩

lemma monoRel_trans {a b c : WorkingOrder} (h₁ : monoRel a b) (h₂ : monoRel b c) :
    monoRel a c := by
  obtain ⟨hs1, hsell1, hbuy1⟩ := h₁
  obtain ⟨hs2, hsell2, hbuy2⟩ := h₂
  refine ⟨hs2.trans hs1, fun h => ?_, fun h => ?_⟩
  · exact le_trans (hsell1 h) (hsell2 (hs1.trans h))
  · exact le_trans (hbuy2 (hs1.trans h)) (hbuy1 h)

lemma trailRel_monoRel (prec : ℕ) (bar : Bar) (sl_buffer spread_buffer : ℚ)
    (o o' : WorkingOrder) (h : trailRel prec bar sl_buffer spread_buffer o o') :
    monoRel o o' := by
  obtain ⟨hs, _, _, hsell, hbuy⟩ := h
  exact ⟨hs, fun hh => (hsell hh).1, fun hh => (hbuy hh).1⟩

lemma forall₂_monoRel_trans :
    ∀ {l₁ l₂ l₃ : List WorkingOrder}, List.Forall₂ monoRel l₁ l₂ →
      List.Forall₂ monoRel l₂ l₃ → List.Forall₂ monoRel l₁ l₃ := by
  intro l₁ l₂ l₃ h₁
  induction h₁ generalizing l₃ with
  | nil =>
      intro h₂
      cases h₂
      exact List.Forall₂.nil
  | cons h t ih =>
      intro h₂
      cases h₂ with
      | cons h' t' => exact List.Forall₂.cons (monoRel_trans h h') (ih t')

lemma sweep_bars_monoRel (prec : ℕ) :
    ∀ (steps : List (Bar × ℚ × ℚ)) (orders : List WorkingOrder),
      List.Forall₂ monoRel orders (sweep_bars prec steps orders) := by
  intro steps
  induction steps with
  | nil => exact fun orders => List.forall₂_same.2 fun x _ => monoRel_refl x
  | cons s rest ih =>
      intro orders
      have h₁ : List.Forall₂ monoRel orders
          (check_trailing_stops prec s.1 s.2.1 s.2.2 orders) :=
        (check_trailing_stops_trailRel prec s.1 s.2.1 s.2.2 orders).imp
          (trailRel_monoRel prec s.1 s.2.1 s.2.2)
      exact forall₂_monoRel_trans h₁ (ih (check_trailing_stops prec s.1 s.2.1 s.2.2 orders))

lemma fixedRiskSize_zero_dist (equity risk_bp price exchange_rate
    commission_rate_bp hard_limit unit_batch_size : ℚ) :
    fixedRiskSize equity risk_bp price price exchange_rate commission_rate_bp
      hard_limit unit_batch_size = 0 := by
  unfold fixedRiskSize
  rw [sub_self, abs_zero, zero_mul]
  simp

lemma on_bar_gate_noop (cfg : StrategyConfig) (st : MarketState) (bar : Bar)
    (h : st.indicators_initialized = false ∨ st.has_quote_ticks = false ∨
      st.average_spread = 0) :
    on_bar cfg st bar = ⟨false, false, none, st.working_orders⟩ := by
  rcases h with h | h | h <;> simp [on_bar, h]

lemma on_bar_open (cfg : StrategyConfig) (st : MarketState) (bar : Bar)
    (h1 : st.indicators_initialized = true) (h2 : st.has_quote_ticks = true)
    (h3 : st.average_spread ≠ 0) :
    on_bar cfg st bar =
      ⟨decide (2 ≤ st.atr_value / st.average_spread), true,
        (if 2 ≤ st.atr_value / st.average_spread
         then check_signal cfg st bar (st.atr_value * cfg.sl_atr_multiple)
           (max st.average_spread st.current_spread)
         else none),
        check_trailing_stops cfg.precision bar (st.atr_value * cfg.sl_atr_multiple)
          (max st.average_spread st.current_spread) st.working_orders⟩ := by
  simp [on_bar, h1, h2, h3]

/-- C1: the claim says a non-stop-loss leg is skipped and the sweep
continues with the remaining legs. The code instead `return`s out of
`_check_trailing_stops` at the first non-stop-loss working order, so a
stop-loss leg placed after a non-stop leg is never evaluated: with the
take-profit leg first, the sweep leaves the stop-loss at price 1 untouched
even though the same sweep applied to the stop-loss alone moves it to 10
(the candidate `bar.low - sl_buffer = 10` strictly improves on 1). -/
theorem C1_return_aborts_sweep :
    check_trailing_stops 5 barMid 0 0 [tpLeg, slLeg] = [tpLeg, slLeg] ∧
    check_trailing_stops 5 barMid 0 0 [slLeg] = [⟨true, OrderSide.sell, 10, 1⟩] ∧
    slLeg.price < barMid.low - 0 := by
  refine ⟨?_, ?_, by norm_num [slLeg, barMid]⟩
  · simp [check_trailing_stops, tpLeg]
  · simp only [check_trailing_stops, slLeg, trail_order, barMid]
    norm_num [priceRound, roundHalfEven]

/-- C3: every pass of the trailing sweep relates each working order to its
image by `trailRel`: a sell-side (long-protecting) stop is modified only if
the raw candidate `bar.low - sl_buffer` strictly exceeds its current
(grid-representable) price and its price never decreases; a buy-side
(short-protecting) stop is modified only if `bar.high + sl_buffer +
spread_buffer` is strictly below its price and its price never increases;
consequently over any sequence of consecutive bars (`sweep_bars`) a
sell-side stop price is non-decreasing and a buy-side stop price
non-increasing. -/
theorem C3_trailing_stop_tightening_and_monotonic :
    (∀ (prec : ℕ) (bar : Bar) (sl_buffer spread_buffer : ℚ)
        (orders : List WorkingOrder),
      List.Forall₂ (trailRel prec bar sl_buffer spread_buffer) orders
        (check_trailing_stops prec bar sl_buffer spread_buffer orders)) ∧
    (∀ (prec : ℕ) (steps : List (Bar × ℚ × ℚ)) (orders : List WorkingOrder),
      List.Forall₂ monoRel orders (sweep_bars prec steps orders)) :=
  ⟨check_trailing_stops_trailRel, sweep_bars_monoRel⟩

theorem C3_witness :
    List.Forall₂ (trailRel 4 barB (1 / 2000) 0) [slLeg]
      (check_trailing_stops 4 barB (1 / 2000) 0 [slLeg]) ∧
    List.Forall₂ monoRel [slLeg] (sweep_bars 4 [(barB, 1 / 2000, 0)] [slLeg]) :=
  ⟨C3_trailing_stop_tightening_and_monotonic.1 4 barB (1 / 2000) 0 [slLeg],
    C3_trailing_stop_tightening_and_monotonic.2 4 [(barB, 1 / 2000, 0)] [slLeg]⟩

/-- C5: a signal is evaluated (some entry path is taken) only when the
working order count is zero and the position is flat; under those gates,
`fast_ema >= slow_ema` (so in particular a tie) takes the BUY path and
`fast_ema < slow_ema` takes the SELL path. -/
theorem C5_signal_preconditions_and_decision :
    ∀ (cfg : StrategyConfig) (st : MarketState) (bar : Bar)
      (sl_buffer spread_buffer : ℚ),
      (∀ p, check_signal cfg st bar sl_buffer spread_buffer = some p →
        st.working_orders.length = 0 ∧ st.is_flat = true) ∧
      (st.working_orders.length = 0 → st.is_flat = true →
        (st.slow_ema ≤ st.fast_ema →
          check_signal cfg st bar sl_buffer spread_buffer =
            some (OrderSide.buy, enter_long cfg st bar sl_buffer spread_buffer)) ∧
        (st.fast_ema < st.slow_ema →
          check_signal cfg st bar sl_buffer spread_buffer =
            some (OrderSide.sell, enter_short cfg st bar sl_buffer spread_buffer))) := by
  intro cfg st bar sl_buffer spread_buffer
  constructor
  · intro p hp
    unfold check_signal at hp
    split_ifs at hp with hgate h1 h2
    all_goals exact hgate
  · intro hlen hflat
    constructor
    · intro hle
      unfold check_signal
      rw [if_pos ⟨hlen, hflat⟩, if_pos hle]
    · intro hlt
      unfold check_signal
      rw [if_pos ⟨hlen, hflat⟩, if_neg (not_le.2 hlt), if_pos hlt]

theorem C5_witness :
    stFlat.working_orders.length = 0 ∧ stFlat.is_flat = true ∧
    stFlat.slow_ema ≤ stFlat.fast_ema ∧
    check_signal cfgW stFlat barW 0 0 =
      some (OrderSide.buy, enter_long cfgW stFlat barW 0 0) :=
  ⟨rfl, rfl, le_refl _,
    ((C5_signal_preconditions_and_decision cfgW stFlat barW 0 0).2 rfl rfl).1 (le_refl _)⟩

/-- C4: whenever the four raw bracket prices are exactly representable at
the instrument precision (so rounding is the identity on them), the BUY
bracket computes `entry = bar.high + entry_buffer + spread_buffer`,
`stopLoss = bar.low - sl_buffer`, and a take-profit exactly `risk = entry -
stopLoss` above the entry; the SELL bracket computes `entry = bar.low -
entry_buffer`, `stopLoss = bar.high + sl_buffer + spread_buffer`, and a
take-profit exactly `risk = stopLoss - entry` below the entry (1:1
reward-to-risk in both directions). -/
theorem C4_bracket_price_formulas :
    ∀ (cfg : StrategyConfig) (bar : Bar) (sl_buffer spread_buffer : ℚ),
      priceRound cfg.precision (bar.high + cfg.entry_buffer + spread_buffer) =
        bar.high + cfg.entry_buffer + spread_buffer →
      priceRound cfg.precision (bar.low - sl_buffer) = bar.low - sl_buffer →
      priceRound cfg.precision (bar.low - cfg.entry_buffer) = bar.low - cfg.entry_buffer →
      priceRound cfg.precision (bar.high + sl_buffer + spread_buffer) =
        bar.high + sl_buffer + spread_buffer →
      ((bracketPricesLong cfg bar sl_buffer spread_buffer).1 =
          bar.high + cfg.entry_buffer + spread_buffer ∧
        (bracketPricesLong cfg bar sl_buffer spread_buffer).2.1 = bar.low - sl_buffer ∧
        (bracketPricesLong cfg bar sl_buffer spread_buffer).2.2 -
            (bracketPricesLong cfg bar sl_buffer spread_buffer).1 =
          (bracketPricesLong cfg bar sl_buffer spread_buffer).1 -
            (bracketPricesLong cfg bar sl_buffer spread_buffer).2.1) ∧
      ((bracketPricesShort cfg bar sl_buffer spread_buffer).1 =
          bar.low - cfg.entry_buffer ∧
        (bracketPricesShort cfg bar sl_buffer spread_buffer).2.1 =
          bar.high + sl_buffer + spread_buffer ∧
        (bracketPricesShort cfg bar sl_buffer spread_buffer).1 -
            (bracketPricesShort cfg bar sl_buffer spread_buffer).2.2 =
          (bracketPricesShort cfg bar sl_buffer spread_buffer).2.1 -
            (bracketPricesShort cfg bar sl_buffer spread_buffer).1) := by
  intro cfg bar sl_buffer spread_buffer hE hS hE2 hS2
  have hTl := priceRound_sub_self cfg.precision _ _ hE hS
  have harg : bar.low - cfg.entry_buffer -
      (bar.high + sl_buffer + spread_buffer - (bar.low - cfg.entry_buffer)) =
      bar.low - cfg.entry_buffer +
        (bar.low - cfg.entry_buffer - (bar.high + sl_buffer + spread_buffer)) := by
    ring
  have hTs := priceRound_sub_self cfg.precision _ _ hE2 hS2
  constructor
  · refine ⟨?_, ?_, ?_⟩ <;> simp only [bracketPricesLong, hE, hS, hTl]
    ring
  · refine ⟨?_, ?_, ?_⟩ <;> simp only [bracketPricesShort, hE2, hS2]
    rw [harg, hTs]
    ring

/-- C2 counterexample: the code contains no `risk > 0` invariant check.
With a tiny spread buffer the rounded BUY bracket has `risk = 0`, yet the
position sizer is still invoked (order construction is not aborted at the
degenerate bracket); with a negative volatility buffer (negative configured
ATR multiple) the computed risk is strictly negative and an order is
nevertheless submitted. -/
theorem C2_counterexample :
    ((bracketPricesLong cfgW barW 0 (1 / 1000000)).1 -
        (bracketPricesLong cfgW barW 0 (1 / 1000000)).2.1 = 0 ∧
      (enter_long cfgW stFlat barW 0 (1 / 1000000)).sizer_invoked = true) ∧
    ((bracketPricesLong cfgW barW (-(1 / 2)) (1 / 10)).1 -
        (bracketPricesLong cfgW barW (-(1 / 2)) (1 / 10)).2.1 < 0 ∧
      (enter_long cfgW stFlat barW (-(1 / 2)) (1 / 10)).submitted ≠ none) := by
  refine ⟨⟨?_, ?_⟩, ⟨?_, ?_⟩⟩ <;>
    norm_num [bracketPricesLong, enter_long, fixedRiskSize, priceRound,
      roundHalfEven, cfgW, barW, stFlat, abs_of_nonneg, abs_of_nonpos,
      Option.some_ne_none]

/-- C2 (amended): when the computed risk is exactly zero (rounded entry
equals rounded stop), no order is submitted — not because of a risk check
(there is none), but because the sizer returns quantity 0 for a zero price
distance and the code aborts at its `position_size == 0` check. -/
theorem C2_zero_risk_no_order :
    ∀ (cfg : StrategyConfig) (st : MarketState) (bar : Bar)
      (sl_buffer spread_buffer : ℚ),
      ((bracketPricesLong cfg bar sl_buffer spread_buffer).1 =
          (bracketPricesLong cfg bar sl_buffer spread_buffer).2.1 →
        (enter_long cfg st bar sl_buffer spread_buffer).submitted = none) ∧
      ((bracketPricesShort cfg bar sl_buffer spread_buffer).1 =
          (bracketPricesShort cfg bar sl_buffer spread_buffer).2.1 →
        (enter_short cfg st bar sl_buffer spread_buffer).submitted = none) := by
  intro cfg st bar sl_buffer spread_buffer
  constructor <;> intro h
  · simp only [enter_long]
    split_ifs with h0 h1
    · rfl
    · rfl
    · exfalso
      apply h1
      rw [h]
      exact fixedRiskSize_zero_dist _ _ _ _ _ _ _
  · simp only [enter_short]
    split_ifs with h0 h1
    · rfl
    · rfl
    · exfalso
      apply h1
      rw [h]
      exact fixedRiskSize_zero_dist _ _ _ _ _ _ _

theorem C2_witness :
    ((bracketPricesLong cfgW barW 0 0).1 = (bracketPricesLong cfgW barW 0 0).2.1 ∧
      (enter_long cfgW stFlat barW 0 0).submitted = none) ∧
    ((bracketPricesShort cfgW barW 0 0).1 = (bracketPricesShort cfgW barW 0 0).2.1 ∧
      (enter_short cfgW stFlat barW 0 0).submitted = none) := by
  have hA : (bracketPricesLong cfgW barW 0 0).1 = (bracketPricesLong cfgW barW 0 0).2.1 := by
    norm_num [bracketPricesLong, priceRound, roundHalfEven, cfgW, barW]
  have hB : (bracketPricesShort cfgW barW 0 0).1 = (bracketPricesShort cfgW barW 0 0).2.1 := by
    norm_num [bracketPricesShort, priceRound, roundHalfEven, cfgW, barW]
  exact ⟨⟨hA, (C2_zero_risk_no_order cfgW stFlat barW 0 0).1 hA⟩,
    ⟨hB, (C2_zero_risk_no_order cfgW stFlat barW 0 0).2 hB⟩⟩

/-- C7 counterexample: the code guards `exchange_rate == 0.0` only, not
`exchange_rate <= 0`: with a negative ASK exchange rate the position sizer
IS invoked, refuting the claim that the sizer is never invoked whenever
the rate is less than or equal to zero. -/
theorem C7_counterexample :
    stNegRate.exchange_rate_ask = some (-1) ∧ ((-1 : ℚ) ≤ 0) ∧
    (enter_long cfgW stNegRate barW 0 0).sizer_invoked = true := by
  refine ⟨rfl, by norm_num, ?_⟩
  simp only [enter_long, stNegRate]
  norm_num
  split_ifs <;> rfl

/-- C7 (amended): when the exchange-rate lookup fails (the `ValueError`
path leaves the rate at its 0.0 initialization) or returns exactly zero,
the sizer is never invoked and no order intent is produced; a negative
returned rate is not guarded. -/
theorem C7_failed_or_zero_rate_skips_sizer :
    ∀ (cfg : StrategyConfig) (st : MarketState) (bar : Bar)
      (sl_buffer spread_buffer : ℚ),
      (st.exchange_rate_ask = none ∨ st.exchange_rate_ask = some 0 →
        (enter_long cfg st bar sl_buffer spread_buffer).sizer_invoked = false ∧
        (enter_long cfg st bar sl_buffer spread_buffer).submitted = none) ∧
      (st.exchange_rate_bid = none ∨ st.exchange_rate_bid = some 0 →
        (enter_short cfg st bar sl_buffer spread_buffer).sizer_invoked = false ∧
        (enter_short cfg st bar sl_buffer spread_buffer).submitted = none) := by
  intro cfg st bar sl_buffer spread_buffer
  constructor <;> rintro (h | h) <;> simp [enter_long, enter_short, h]

theorem C7_witness :
    (stNoRate.exchange_rate_ask = none ∨ stNoRate.exchange_rate_ask = some 0) ∧
    (enter_long cfgW stNoRate barW 0 0).sizer_invoked = false ∧
    (enter_long cfgW stNoRate barW 0 0).submitted = none ∧
    (stNoRate.exchange_rate_bid = none ∨ stNoRate.exchange_rate_bid = some 0) ∧
    (enter_short cfgW stNoRate barW 0 0).sizer_invoked = false ∧
    (enter_short cfgW stNoRate barW 0 0).submitted = none := by
  have h1 : stNoRate.exchange_rate_ask = none := rfl
  have h2 : stNoRate.exchange_rate_bid = none := rfl
  obtain ⟨ha, hb⟩ := C7_failed_or_zero_rate_skips_sizer cfgW stNoRate barW 0 0
  exact ⟨Or.inl h1, (ha (Or.inl h1)).1, (ha (Or.inl h1)).2,
    Or.inl h2, (hb (Or.inl h2)).1, (hb (Or.inl h2)).2⟩

theorem C4_witness :
    (priceRound cfgB.precision (barB.high + cfgB.entry_buffer + 2 / 10000) =
        barB.high + cfgB.entry_buffer + 2 / 10000) ∧
    (priceRound cfgB.precision (barB.low - 1 / 1000) = barB.low - 1 / 1000) ∧
    (priceRound cfgB.precision (barB.low - cfgB.entry_buffer) =
        barB.low - cfgB.entry_buffer) ∧
    (priceRound cfgB.precision (barB.high + 1 / 1000 + 2 / 10000) =
        barB.high + 1 / 1000 + 2 / 10000) ∧
    ((bracketPricesLong cfgB barB (1 / 1000) (2 / 10000)).2.2 -
        (bracketPricesLong cfgB barB (1 / 1000) (2 / 10000)).1 =
      (bracketPricesLong cfgB barB (1 / 1000) (2 / 10000)).1 -
        (bracketPricesLong cfgB barB (1 / 1000) (2 / 10000)).2.1) := by
  have h1 : priceRound cfgB.precision (barB.high + cfgB.entry_buffer + 2 / 10000) =
      barB.high + cfgB.entry_buffer + 2 / 10000 := by
    norm_num [priceRound, roundHalfEven, cfgB, barB]
  have h2 : priceRound cfgB.precision (barB.low - 1 / 1000) = barB.low - 1 / 1000 := by
    norm_num [priceRound, roundHalfEven, cfgB, barB]
  have h3 : priceRound cfgB.precision (barB.low - cfgB.entry_buffer) =
      barB.low - cfgB.entry_buffer := by
    norm_num [priceRound, roundHalfEven, cfgB, barB]
  have h4 : priceRound cfgB.precision (barB.high + 1 / 1000 + 2 / 10000) =
      barB.high + 1 / 1000 + 2 / 10000 := by
    norm_num [priceRound, roundHalfEven, cfgB, barB]
  exact ⟨h1, h2, h3, h4,
    ((C4_bracket_price_formulas cfgB barB (1 / 1000) (2 / 10000) h1 h2 h3 h4).1).2.2⟩

/-- C6: once the warm-up gates pass (indicators initialized, ticks seen,
nonzero average spread), entry evaluation (`_check_signal`) is reached if
and only if `atr / average_spread >= 2`, the boundary value 2 included; when
the ratio is below 2 only the entry evaluation is skipped and the
trailing-stop sweep still runs. -/
theorem C6_liquidity_gate :
    ∀ (cfg : StrategyConfig) (st : MarketState) (bar : Bar),
      st.indicators_initialized = true → st.has_quote_ticks = true →
      st.average_spread ≠ 0 →
      ((on_bar cfg st bar).entry_checked = true ↔
        2 ≤ st.atr_value / st.average_spread) ∧
      (on_bar cfg st bar).trailing_ran = true ∧
      (st.atr_value / st.average_spread < 2 →
        (on_bar cfg st bar).signal = none ∧
        (on_bar cfg st bar).trailing_ran = true) := by
  intro cfg st bar h1 h2 h3
  rw [on_bar_open cfg st bar h1 h2 h3]
  refine ⟨by simp, rfl, ?_⟩
  intro hlt
  refine ⟨?_, rfl⟩
  show (if 2 ≤ st.atr_value / st.average_spread then _ else none) = none
  rw [if_neg (not_le.2 hlt)]

theorem C6_witness :
    stBoundary.indicators_initialized = true ∧ stBoundary.has_quote_ticks = true ∧
    stBoundary.average_spread ≠ 0 ∧
    stBoundary.atr_value / stBoundary.average_spread = 2 ∧
    (on_bar cfgW stBoundary barW).entry_checked = true := by
  have h3 : stBoundary.average_spread ≠ 0 := by norm_num [stBoundary]
  have h := C6_liquidity_gate cfgW stBoundary barW rfl rfl h3
  exact ⟨rfl, rfl, h3, by norm_num [stBoundary], h.1.mpr (by norm_num [stBoundary])⟩

/-- C8 counterexample: the code only discards the bar when the average
spread is exactly 0.0, not whenever it is non-positive: with a negative
average spread (crossed quotes) the bar is processed, the trailing sweep
runs, and a working stop order is modified — a side effect, refuting the
claim that such a bar is discarded with no side effect. -/
theorem C8_counterexample :
    stNegSpread.average_spread ≤ 0 ∧
    stNegSpread.indicators_initialized = true ∧
    stNegSpread.has_quote_ticks = true ∧
    (on_bar cfgW stNegSpread barHigh).trailing_ran = true ∧
    (on_bar cfgW stNegSpread barHigh).orders_after ≠ stNegSpread.working_orders := by
  have h3 : stNegSpread.average_spread ≠ 0 := by norm_num [stNegSpread]
  refine ⟨by norm_num [stNegSpread], rfl, rfl, ?_, ?_⟩ <;>
      rw [on_bar_open cfgW stNegSpread barHigh rfl rfl h3] <;>
    norm_num [check_trailing_stops, trail_order, priceRound, roundHalfEven,
      stNegSpread, barHigh, cfgW, sup_eq_max, max_def]

/-- C8 (amended): if any indicator is not ready, or no quote tick has been
observed, or the average spread is exactly zero, the bar is discarded with
no side effect: entry evaluation is not reached, no signal is produced, the
trailing sweep does not run and the working orders are unchanged. (The code
checks `average_spread == 0.0`, not `> 0`; a negative average spread is not
caught.) -/
theorem C8_warmup_gates_noop :
    ∀ (cfg : StrategyConfig) (st : MarketState) (bar : Bar),
      st.indicators_initialized = false ∨ st.has_quote_ticks = false ∨
        st.average_spread = 0 →
      (on_bar cfg st bar).entry_checked = false ∧
      (on_bar cfg st bar).signal = none ∧
      (on_bar cfg st bar).trailing_ran = false ∧
      (on_bar cfg st bar).orders_after = st.working_orders := by
  intro cfg st bar h
  rw [on_bar_gate_noop cfg st bar h]
  exact ⟨rfl, rfl, rfl, rfl⟩

theorem C8_witness :
    (stNotReady.indicators_initialized = false ∨ stNotReady.has_quote_ticks = false ∨
      stNotReady.average_spread = 0) ∧
    (on_bar cfgW stNotReady barHigh).entry_checked = false ∧
    (on_bar cfgW stNotReady barHigh).signal = none ∧
    (on_bar cfgW stNotReady barHigh).trailing_ran = false ∧
    (on_bar cfgW stNotReady barHigh).orders_after = stNotReady.working_orders := by
  have h : stNotReady.indicators_initialized = false ∨
      stNotReady.has_quote_ticks = false ∨ stNotReady.average_spread = 0 :=
    Or.inl rfl
  obtain ⟨h1, h2, h3, h4⟩ := C8_warmup_gates_noop cfgW stNotReady barHigh h
  exact ⟨h, h1, h2, h3, h4⟩

/-- C9: whenever `_enter_long` or `_enter_short` submits a bracket, its
entry leg carries `time_in_force = GTD` and an expiry exactly one minute
(60 seconds) after the triggering bar's timestamp. -/
theorem C9_entry_gtd_one_minute :
    ∀ (cfg : StrategyConfig) (st : MarketState) (bar : Bar)
      (sl_buffer spread_buffer : ℚ) (i : OrderIntent),
      ((enter_long cfg st bar sl_buffer spread_buffer).submitted = some i →
        i.time_in_force = TimeInForce.gtd ∧ i.expire_time = bar.timestamp + 60) ∧
      ((enter_short cfg st bar sl_buffer spread_buffer).submitted = some i →
        i.time_in_force = TimeInForce.gtd ∧ i.expire_time = bar.timestamp + 60) := by
  intro cfg st bar sl_buffer spread_buffer i
  constructor <;> intro h
  · simp only [enter_long] at h
    split_ifs at h with h0 h1
    all_goals first
      | (subst h
         exact ⟨rfl, rfl⟩)
      | (cases Option.some.inj h
         exact ⟨rfl, rfl⟩)
      | simp at h
  · simp only [enter_short] at h
    split_ifs at h with h0 h1
    all_goals first
      | (subst h
         exact ⟨rfl, rfl⟩)
      | (cases Option.some.inj h
         exact ⟨rfl, rfl⟩)
      | simp at h

theorem C9_witness :
    (enter_long cfgW stFlat barW 0 (1 / 10000)).submitted = some intentW ∧
    intentW.time_in_force = TimeInForce.gtd ∧
    intentW.expire_time = barW.timestamp + 60 := by
  have h : (enter_long cfgW stFlat barW 0 (1 / 10000)).submitted = some intentW := by
    norm_num [enter_long, bracketPricesLong, fixedRiskSize, priceRound,
      roundHalfEven, cfgW, barW, stFlat, intentW, abs_of_nonneg]
  exact ⟨h, (C9_entry_gtd_one_minute cfgW stFlat barW 0 (1 / 10000) intentW).1 h⟩

/-- C10: on a bar rejected by the warm-up gates (indicators not ready, no
quote ticks, or average spread equal to zero) the trailing-stop sweep does
not run either: the working orders are returned unmodified. -/
theorem C10_gates_suppress_trailing :
    ∀ (cfg : StrategyConfig) (st : MarketState) (bar : Bar),
      st.indicators_initialized = false ∨ st.has_quote_ticks = false ∨
        st.average_spread = 0 →
      (on_bar cfg st bar).trailing_ran = false ∧
      (on_bar cfg st bar).orders_after = st.working_orders := by
  intro cfg st bar h
  rw [on_bar_gate_noop cfg st bar h]
  exact ⟨rfl, rfl⟩

theorem C10_witness :
    (stZeroSpread.indicators_initialized = false ∨
      stZeroSpread.has_quote_ticks = false ∨ stZeroSpread.average_spread = 0) ∧
    (on_bar cfgW stZeroSpread barHigh).trailing_ran = false ∧
    (on_bar cfgW stZeroSpread barHigh).orders_after = stZeroSpread.working_orders := by
  have h : stZeroSpread.indicators_initialized = false ∨
      stZeroSpread.has_quote_ticks = false ∨ stZeroSpread.average_spread = 0 :=
    Or.inr (Or.inr rfl)
  obtain ⟨h1, h2⟩ := C10_gates_suppress_trailing cfgW stZeroSpread barHigh h
  exact ⟨h, h1, h2⟩

end EmaCross
